import Mathlib

/-!
Verification development for generate_icons.py.

The script draws a set of golf-ball icons with a 2D drawing library and
writes one PNG per size.  The embedding below translates the script into
pure Lean data: every drawing call becomes a record in a list of render
steps, in the order the script issues them.  Python floats are idealized
as exact rationals (the literals 0.1, 1.2, 0.3, 0.8 become 1/10, 6/5,
3/10, 8/10); Python `int(...)` is truncation toward zero, `//` is floor
division, and `range(a, -1, -1)` is the descending list from a to 0.
File writes and console prints are modeled as the strings the script
builds for them.
-/

namespace GenIcons

/-- RGBA color quadruple.  The library resolves the color names used by the
script as follows: white = (255,255,255,255), the hex gray #E5E7EB =
(229,231,235,255). -/
abbrev Color := ℤ × ℤ × ℤ × ℤ

def white : Color := (255, 255, 255, 255)

def lightGray : Color := (229, 231, 235, 255)

/-- glow_color = (255, 255, 255, 100) from the script. -/
def glow_color : Color := (255, 255, 255, 100)

/-- Python int() applied to a real value: truncation toward zero. -/
def pyInt (q : ℚ) : ℤ := if 0 ≤ q then ⌊q⌋ else ⌈q⌉

/-- Python floor division a // b. -/
def pyFloorDiv (a b : ℤ) : ℤ := Int.fdiv a b

/-- Python range(a, -1, -1): the descending list a, a-1, ..., 0 (empty when
a < 0). -/
def pyRangeDown (a : ℤ) : List ℤ :=
  if a < 0 then [] else (List.range (a.toNat + 1)).map (fun k : ℕ => a - (k : ℤ))

/-- One primitive drawing call on a canvas, with the bounding box and style
arguments the script passes.  ellipse/arc take the bounding box
[x0, y0, x1, y1]; line takes the two endpoints and a stroke width. -/
inductive DrawOp where
  | ellipse (x0 y0 x1 y1 : ℚ) (fill : Color)
  | arc (x0 y0 x1 y1 : ℚ) (startA stopA : ℤ) (fill : Color) (width : ℤ)
  | line (x0 y0 x1 y1 : ℚ) (fill : Color) (width : ℤ)
deriving DecidableEq

/-- One step of the rendering of a single icon: either a direct drawing call
on the main canvas, or `pasteMasked w h ops blur`, which models building an
auxiliary w-by-h RGBA canvas, drawing `ops` on it, applying a gaussian blur
of the given radius, and compositing the result onto the main canvas at
(0,0) using the auxiliary canvas itself (its alpha channel) as the mask --
exactly `img.paste(aux, (0, 0), aux)` in the script. -/
inductive RenderStep where
  | draw (op : DrawOp)
  | pasteMasked (w h : ℤ) (ops : List DrawOp) (blur : ℤ)

/-- The full result of create_icon(size): canvas dimensions, the ordered
render steps, the file path written and the console line printed. -/
structure Icon where
  w : ℤ
  h : ℤ
  steps : List RenderStep
  filename : String
  printed : String

/-- SIZES = [72, 96, 128, 144, 152, 192, 384, 512]. -/
def SIZES : List ℤ := [72, 96, 128, 144, 152, 192, 384, 512]

/-- padding = size * 0.1. -/
def padding (s : ℤ) : ℚ := (s : ℚ) * (1 / 10)

/-- center = size / 2. -/
def center (s : ℤ) : ℚ := (s : ℚ) / 2

/-- ball_radius = (size - 2 * padding) / 3. -/
def ball_radius (s : ℤ) : ℚ := ((s : ℚ) - 2 * padding s) / 3

/-- The gradient loop indices: range(int(size * 1.2), -1, -1). -/
def gradIndices (s : ℤ) : List ℤ := pyRangeDown (pyInt ((s : ℚ) * (6 / 5)))

/-- alpha = int(255 * (1 - i / (size * 1.2))). -/
def gradAlpha (s : ℤ) (i : ℤ) : ℤ :=
  pyInt (255 * (1 - (i : ℚ) / ((s : ℚ) * (6 / 5))))

/-- One gradient circle: draw.ellipse([center - i/2, center - i/2,
center + i/2, center + i/2], fill=(59, 130, 246, alpha)). -/
def gradOp (s : ℤ) (i : ℤ) : DrawOp :=
  .ellipse (center s - (i : ℚ) / 2) (center s - (i : ℚ) / 2)
    (center s + (i : ℚ) / 2) (center s + (i : ℚ) / 2)
    (59, 130, 246, gradAlpha s i)

/-- The whole gradient backdrop, in the order the loop draws it. -/
def gradOps (s : ℤ) : List DrawOp := (gradIndices s).map (gradOp s)

/-- The shadow disc drawn on the auxiliary canvas: bounding box
[center - ball_radius + 2, ..., center + ball_radius + 2], fill (0,0,0,50). -/
def shadowOp (s : ℤ) : DrawOp :=
  .ellipse (center s - ball_radius s + 2) (center s - ball_radius s + 2)
    (center s + ball_radius s + 2) (center s + ball_radius s + 2)
    (0, 0, 0, 50)

/-- GaussianBlur radius = size // 30. -/
def blurRadius (s : ℤ) : ℤ := pyFloorDiv s 30

/-- The solid white ball: draw.ellipse([center - ball_radius, ...,
center + ball_radius], fill=white). -/
def ballOp (s : ℤ) : DrawOp :=
  .ellipse (center s - ball_radius s) (center s - ball_radius s)
    (center s + ball_radius s) (center s + ball_radius s) white

/-- pattern_radius = ball_radius * 0.8. -/
def pattern_radius (s : ℤ) : ℚ := ball_radius s * (8 / 10)

/-- range(0, 360, 45). -/
def arcAngles : List ℤ := [0, 45, 90, 135, 180, 225, 270, 315]

/-- x1 = y1 = center + pattern_radius * 0.3 * (angle % 90) / 90. -/
def arcX (s : ℤ) (a : ℤ) : ℚ :=
  center s + pattern_radius s * (3 / 10) * ((a % 90 : ℤ) : ℚ) / 90

/-- One pattern arc: draw.arc([x1 - pattern_radius, y1 - pattern_radius,
x1 + pattern_radius, y1 + pattern_radius], angle, angle + 30,
fill=#E5E7EB, width=max(1, size // 50)). -/
def arcOp (s : ℤ) (a : ℤ) : DrawOp :=
  .arc (arcX s a - pattern_radius s) (arcX s a - pattern_radius s)
    (arcX s a + pattern_radius s) (arcX s a + pattern_radius s)
    a (a + 30) lightGray (max 1 (pyFloorDiv s 50))

/-- All eight pattern arcs in loop order. -/
def arcOps (s : ℤ) : List DrawOp := arcAngles.map (arcOp s)

/-- line_width = max(2, size // 30). -/
def line_width (s : ℤ) : ℤ := max 2 (pyFloorDiv s 30)

/-- draw_glowing_line(start, end): three glow strokes of widths
line_width + (3 - i) * 2 for i in range(3), then the solid white core of
width line_width. -/
def draw_glowing_line (s : ℤ) (a b : ℚ × ℚ) : List DrawOp :=
  ((List.range 3).map fun i : ℕ =>
      DrawOp.line a.1 a.2 b.1 b.2 glow_color (line_width s + (3 - (i : ℤ)) * 2))
    ++ [DrawOp.line a.1 a.2 b.1 b.2 white (line_width s)]

/-- The four crosshair segments, with the endpoints the script passes to
draw_glowing_line, in call order: top, bottom, left, right. -/
def crosshair (s : ℤ) : List ((ℚ × ℚ) × (ℚ × ℚ)) :=
  [ ((center s, padding s), (center s, center s - ball_radius s - padding s)),
    ((center s, center s + ball_radius s + padding s), (center s, (s : ℚ) - padding s)),
    ((padding s, center s), (center s - ball_radius s - padding s, center s)),
    ((center s + ball_radius s + padding s, center s), ((s : ℚ) - padding s, center s)) ]

/-- All sixteen line strokes of the crosshair, in draw order. -/
def lineOps (s : ℤ) : List DrawOp :=
  ((crosshair s).map (fun ab => draw_glowing_line s ab.1 ab.2)).flatten

/-- The file path written: icons/icon-{size}x{size}.png. -/
def fileName (s : ℤ) : String :=
  "icons/icon-" ++ toString s ++ "x" ++ toString s ++ ".png"

/-- The console line: Generated icon-{size}x{size}.png. -/
def message (s : ℤ) : String :=
  "Generated icon-" ++ toString s ++ "x" ++ toString s ++ ".png"

/-- The icon create_icon(size) renders, as the ordered sequence of its
drawing calls: gradient backdrop, blurred shadow pasted with its own alpha
as mask, white ball, eight pattern arcs, four glowing crosshair lines. -/
def iconData (s : ℤ) : Icon :=
  { w := s
    h := s
    steps :=
      (gradOps s).map RenderStep.draw
        ++ [RenderStep.pasteMasked s s [shadowOp s] (blurRadius s)]
        ++ [RenderStep.draw (ballOp s)]
        ++ (arcOps s).map RenderStep.draw
        ++ (lineOps s).map RenderStep.draw
    filename := fileName s
    printed := message s }

def zeroDivisionError : String := "ZeroDivisionError"

/-- create_icon(size).  The function performs no validation of its argument:
it computes the geometry and issues the drawing calls unconditionally.  Its
only possible failure of its own is the interpreter arithmetic error raised
when the first gradient iteration divides by size * 1.2 = 0, which happens
exactly when the gradient loop body runs with a zero denominator (size = 0);
errors raised inside the drawing library are outside the function. -/
def create_icon (s : ℤ) : Except String Icon :=
  if (s : ℚ) * (6 / 5) = 0 ∧ gradIndices s ≠ [] then Except.error zeroDivisionError
  else Except.ok (iconData s)

/-- The driving loop: for size in SIZES: create_icon(size), collecting the
(file written, line printed) pair of each iteration; the first raised error
aborts the run. -/
def generate_all : Except String (List (String × String)) :=
  SIZES.mapM fun s => (create_icon s).map fun ic => (ic.filename, ic.printed)

/-- The gradient backdrop exactly as claim C1 words it: radii i descending
from round(1.2 * size) to 0, each drawn as a filled circle of radius i
(bounding box center plus or minus i) with alpha = round(255 * (1 - i /
(1.2 * size))). -/
def claimC1GradOps (s : ℤ) : List DrawOp :=
  (pyRangeDown (round ((s : ℚ) * (6 / 5)))).map fun i : ℤ =>
    DrawOp.ellipse (center s - (i : ℚ)) (center s - (i : ℚ))
      (center s + (i : ℚ)) (center s + (i : ℚ))
      (59, 130, 246, round (255 * (1 - (i : ℚ) / ((s : ℚ) * (6 / 5)))))

/-- The amended reading of claim C1: radii i descending from the
truncation of 1.2 * size to 0, each drawn as a filled circle of diameter i
(bounding box center plus or minus i/2) with truncated alpha. -/
def specGradOps (s : ℤ) : List DrawOp :=
  (pyRangeDown ⌊(s : ℚ) * (6 / 5)⌋).map fun i : ℤ =>
    DrawOp.ellipse (center s - (i : ℚ) / 2) (center s - (i : ℚ) / 2)
      (center s + (i : ℚ) / 2) (center s + (i : ℚ) / 2)
      (59, 130, 246, ⌊255 * (1 - (i : ℚ) / ((s : ℚ) * (6 / 5)))⌋)

/-- The four crosshair segments exactly as claim C2 words them: each one
reaching the bounding edge of the ball (center - ball_radius resp.
center + ball_radius) rather than stopping one padding short of it. -/
def claimC2Segs (s : ℤ) : List ((ℚ × ℚ) × (ℚ × ℚ)) :=
  [ ((center s, padding s), (center s, center s - ball_radius s)),
    ((center s, center s + ball_radius s), (center s, (s : ℚ) - padding s)),
    ((padding s, center s), (center s - ball_radius s, center s)),
    ((center s + ball_radius s, center s), ((s : ℚ) - padding s, center s)) ]

/-- Extract the solid-white core stroke of a render step, if it is one. -/
def coreOfStep : RenderStep → Option ((ℚ × ℚ) × (ℚ × ℚ))
  | RenderStep.draw (DrawOp.line x0 y0 x1 y1 f _) =>
      if f = white then some ((x0, y0), (x1, y1)) else none
  | _ => none

/-- The solid-white line segments of an icon, in draw order. -/
def coreSegments (ic : Icon) : List ((ℚ × ℚ) × (ℚ × ℚ)) :=
  ic.steps.filterMap coreOfStep

/-- A closed disc in the plane, used as a conservative footprint bound for
a drawing operation. -/
structure Disc where
  cx : ℚ
  cy : ℚ
  r : ℚ

/-- A conservative bounding disc for a drawing call: every canvas pixel the
call can touch lies in this disc.  For ellipse and arc the disc is centered
at the bounding-box center with the half-width of the box as radius (plus
the stroke width for arc); for line it is centered at the segment midpoint
with radius bounded by half the taxicab length plus the stroke width.  The
`extra` term accounts for alpha spread by a gaussian blur applied
afterwards, and 2 further pixels of slop cover rasterization and
anti-aliasing at the shape boundary. -/
def discOfOp (extra : ℚ) : DrawOp → Disc
  | DrawOp.ellipse x0 y0 x1 y1 _ =>
      ⟨(x0 + x1) / 2, (y0 + y1) / 2, (x1 - x0) / 2 + extra + 2⟩
  | DrawOp.arc x0 y0 x1 y1 _ _ _ wd =>
      ⟨(x0 + x1) / 2, (y0 + y1) / 2, (x1 - x0) / 2 + (wd : ℚ) + extra + 2⟩
  | DrawOp.line x0 y0 x1 y1 _ wd =>
      ⟨(x0 + x1) / 2, (y0 + y1) / 2, (|x1 - x0| + |y1 - y0|) / 2 + (wd : ℚ) + extra + 2⟩

def inDisc (d : Disc) (p : ℚ × ℚ) : Prop :=
  (p.1 - d.cx) ^ 2 + (p.2 - d.cy) ^ 2 ≤ d.r ^ 2

/-- Conservative reach of one render step: a directly drawn op can only
touch pixels inside its bounding disc; a blurred-and-pasted auxiliary
canvas can only touch pixels within the bounding disc of one of its ops
enlarged by three times the gaussian blur radius. -/
def stepCovers : RenderStep → (ℚ × ℚ) → Prop
  | RenderStep.draw op, p => inDisc (discOfOp 0 op) p
  | RenderStep.pasteMasked _ _ ops blur, p =>
      ∃ op ∈ ops, inDisc (discOfOp (3 * (blur : ℚ)) op) p

/-- The four corner pixels of a size-by-size canvas. -/
def corners (s : ℤ) : List (ℚ × ℚ) :=
  [(0, 0), (0, (s : ℚ) - 1), ((s : ℚ) - 1, 0), ((s : ℚ) - 1, (s : ℚ) - 1)]

/-- An ambient environment a run could in principle read: a clock and a
random seed.  The script imports no time or randomness source, so its
output cannot depend on either; `run_with` makes that explicit by taking
the environment as an unused argument. -/
structure Environment where
  clock : ℕ
  randomSeed : ℕ

/-- One generator run over a size list in a given environment, returning
for every size the file path and the full rendered content written to it. -/
def run_with (_env : Environment) (sizes : List ℤ) :
    Except String (List (String × Icon)) :=
  sizes.mapM fun s => (create_icon s).map fun ic => (ic.filename, ic)

/-- The eight (file written, line printed) pairs the run produces. -/
def expectedOutputs : List (String × String) :=
  [ (r"icons/icon-72x72.png", r"Generated icon-72x72.png"),
    (r"icons/icon-96x96.png", r"Generated icon-96x96.png"),
    (r"icons/icon-128x128.png", r"Generated icon-128x128.png"),
    (r"icons/icon-144x144.png", r"Generated icon-144x144.png"),
    (r"icons/icon-152x152.png", r"Generated icon-152x152.png"),
    (r"icons/icon-192x192.png", r"Generated icon-192x192.png"),
    (r"icons/icon-384x384.png", r"Generated icon-384x384.png"),
    (r"icons/icon-512x512.png", r"Generated icon-512x512.png") ]

/-! Helper lemmas about the Python arithmetic primitives. -/

theorem mem_pyRangeDown {a i : ℤ} (h : i ∈ pyRangeDown a) : 0 ≤ i ∧ i ≤ a := by
  rw [pyRangeDown] at h
  split at h
  · simp at h
  · next ha =>
    simp only [List.mem_map, List.mem_range] at h
    obtain ⟨k, hk, rfl⟩ := h
    push_neg at ha
    have h1 : k ≤ a.toNat := Nat.lt_succ_iff.mp hk
    have h2 : ((a.toNat : ℕ) : ℤ) = a := Int.toNat_of_nonneg ha
    have h3 : ((k : ℕ) : ℤ) ≤ ((a.toNat : ℕ) : ℤ) := by exact_mod_cast h1
    omega

theorem pyRangeDown_mem {a i : ℤ} (h0 : 0 ≤ i) (h1 : i ≤ a) : i ∈ pyRangeDown a := by
  rw [pyRangeDown, if_neg (by omega)]
  simp only [List.mem_map, List.mem_range]
  have h2 : ((a.toNat : ℕ) : ℤ) = a := Int.toNat_of_nonneg (by omega)
  have h3 : (((a - i).toNat : ℕ) : ℤ) = a - i := Int.toNat_of_nonneg (by omega)
  refine ⟨(a - i).toNat, by omega, by omega⟩

theorem pyRangeDown_sorted (a : ℤ) : (pyRangeDown a).Pairwise (· > ·) := by
  rw [pyRangeDown]
  split
  · exact List.Pairwise.nil
  · refine (List.pairwise_lt_range _).map _ ?_
    intro x y hxy
    have : ((x : ℕ) : ℤ) < ((y : ℕ) : ℤ) := by exact_mod_cast hxy
    omega

theorem pyInt_eq_floor {q : ℚ} (h : 0 ≤ q) : pyInt q = ⌊q⌋ := by
  rw [pyInt, if_pos h]

theorem pyFloorDiv_eq_floor (a b : ℤ) (hb : 0 < b) :
    pyFloorDiv a b = ⌊(a : ℚ) / (b : ℚ)⌋ := by
  rw [pyFloorDiv, Int.fdiv_eq_ediv a hb.le]
  have hbn : b = ((b.toNat : ℕ) : ℤ) := (Int.toNat_of_nonneg hb.le).symm
  rw [hbn]
  rw [show (((b.toNat : ℕ) : ℤ) : ℚ) = ((b.toNat : ℕ) : ℚ) by push_cast; ring]
  exact (Rat.floor_intCast_div_natCast a b.toNat).symm

theorem pyFloorDiv_le (a b : ℤ) (hb : 0 < b) :
    ((pyFloorDiv a b : ℤ) : ℚ) ≤ (a : ℚ) / (b : ℚ) := by
  rw [pyFloorDiv_eq_floor a b hb]
  exact Int.floor_le _

theorem le_pyFloorDiv (z a b : ℤ) (hb : 0 < b) (h : (z : ℚ) ≤ (a : ℚ) / (b : ℚ)) :
    z ≤ pyFloorDiv a b := by
  rw [pyFloorDiv_eq_floor a b hb]
  exact Int.le_floor.mpr h

theorem mem_gradIndices {s i : ℤ} (hs : 0 < s) (h : i ∈ gradIndices s) :
    0 ≤ i ∧ (i : ℚ) ≤ (s : ℚ) * (6 / 5) := by
  have hq : (0 : ℚ) ≤ (s : ℚ) * (6 / 5) := by
    have : (0 : ℚ) ≤ (s : ℚ) := by exact_mod_cast hs.le
    positivity
  rw [gradIndices, pyInt_eq_floor hq] at h
  obtain ⟨h0, h1⟩ := mem_pyRangeDown h
  refine ⟨h0, ?_⟩
  calc (i : ℚ) ≤ (⌊(s : ℚ) * (6 / 5)⌋ : ℚ) := by exact_mod_cast h1
    _ ≤ (s : ℚ) * (6 / 5) := Int.floor_le _

theorem filterMap_none {α β : Type _} (f : α → Option β) :
    ∀ l : List α, (∀ a ∈ l, f a = none) → l.filterMap f = []
  | [], _ => rfl
  | a :: l, h => by
    rw [List.filterMap_cons, h a (by simp)]
    exact filterMap_none f l fun x hx => h x (by simp [hx])

theorem coreOfStep_glow (x0 y0 x1 y1 : ℚ) (wd : ℤ) :
    coreOfStep (RenderStep.draw (DrawOp.line x0 y0 x1 y1 glow_color wd)) = none := by
  simp only [coreOfStep]
  rw [if_neg (by decide)]

theorem coreOfStep_white (x0 y0 x1 y1 : ℚ) (wd : ℤ) :
    coreOfStep (RenderStep.draw (DrawOp.line x0 y0 x1 y1 white wd)) =
      some ((x0, y0), (x1, y1)) := by
  simp [coreOfStep]

theorem create_icon_ok {s : ℤ} (hs : s ≠ 0) :
    create_icon s = Except.ok (iconData s) := by
  rw [create_icon, if_neg]
  rintro ⟨h1, -⟩
  have h65 : (6 / 5 : ℚ) ≠ 0 := by norm_num
  have hsq : (s : ℚ) = 0 := (mul_eq_zero.mp h1).resolve_right h65
  exact hs (by exact_mod_cast hsq)

/-- The white core strokes of an icon are exactly the four crosshair
segments the script passes to draw_glowing_line. -/
theorem coreSegments_eq (s : ℤ) : coreSegments (iconData s) = crosshair s := by
  have h3 : List.range 3 = [0, 1, 2] := rfl
  have hgrad : ((gradOps s).map RenderStep.draw).filterMap coreOfStep = [] := by
    apply filterMap_none
    intro st hst
    simp only [gradOps, List.map_map, List.mem_map] at hst
    obtain ⟨i, -, rfl⟩ := hst
    rfl
  have harc : ((arcOps s).map RenderStep.draw).filterMap coreOfStep = [] := by
    apply filterMap_none
    intro st hst
    simp only [arcOps, List.map_map, List.mem_map] at hst
    obtain ⟨a, -, rfl⟩ := hst
    rfl
  simp only [coreSegments, iconData, List.filterMap_append, hgrad, harc]
  simp only [lineOps, crosshair, draw_glowing_line, h3, List.map_cons, List.map_nil,
    List.flatten, List.map_append, List.append_nil, List.filterMap_append,
    List.filterMap_cons, coreOfStep_glow, coreOfStep_white]
  rfl

/-- C1, claim as stated, refuted at size 3: the script starts the gradient
loop at int(3 * 1.2) = 3 (truncation), not round(3.6) = 4, so it draws four
circles where the claim asks for five (and each at half the claimed
radius). -/
theorem C1_cex : claimC1GradOps 3 ≠ gradOps 3 := by
  have hc : ((3 : ℤ) : ℚ) * (6 / 5) = 18 / 5 := by norm_num
  have hlen1 : (claimC1GradOps 3).length = 5 := by
    rw [claimC1GradOps, List.length_map, hc]
    rw [show round (18 / 5 : ℚ) = 4 by norm_num [round_eq]]
    rw [pyRangeDown, if_neg (by norm_num)]
    simp
  have hlen2 : (gradOps 3).length = 4 := by
    rw [gradOps, List.length_map, gradIndices, hc]
    rw [show pyInt (18 / 5 : ℚ) = 3 by rw [pyInt, if_pos (by norm_num)]; norm_num]
    rw [pyRangeDown, if_neg (by norm_num)]
    simp
  intro h
  rw [h, hlen2] at hlen1
  exact absurd hlen1 (by norm_num)

/-- C1 (amended): for every positive edge length the gradient backdrop
iterates an integer i descending strictly from the truncation of
1.2 x size down to 0, at each step painting a filled circle of diameter i
(radius i/2) centered at the canvas center, with the fixed accent color
(59, 130, 246) and alpha equal to the truncation of
255 x (1 - i / (1.2 x size)); later circles have strictly smaller radius
and overpaint the earlier ones. -/
theorem C1_gradient (s : ℤ) (hs : 0 < s) :
    gradOps s = specGradOps s ∧ (gradIndices s).Pairwise (· > ·) := by
  have hq0 : (0 : ℚ) < (s : ℚ) := by exact_mod_cast hs
  have hq : (0 : ℚ) ≤ (s : ℚ) * (6 / 5) := by positivity
  constructor
  · rw [gradOps, specGradOps, gradIndices, pyInt_eq_floor hq]
    apply List.map_congr_left
    intro i hi
    obtain ⟨h0, h1⟩ := mem_pyRangeDown hi
    have hle : (i : ℚ) ≤ (s : ℚ) * (6 / 5) :=
      le_trans (by exact_mod_cast h1) (Int.floor_le _)
    have hposq : (0 : ℚ) < (s : ℚ) * (6 / 5) := by positivity
    have hdiv : (i : ℚ) / ((s : ℚ) * (6 / 5)) ≤ 1 := (div_le_one hposq).mpr hle
    rw [gradOp, gradAlpha, pyInt_eq_floor (by nlinarith)]
  · rw [gradIndices]
    exact pyRangeDown_sorted _

theorem C1_gradient_w :
    (0 : ℤ) < 3 ∧ (gradOps 3 = specGradOps 3 ∧ (gradIndices 3).Pairwise (· > ·)) :=
  ⟨by decide, C1_gradient 3 (by decide)⟩

/-- C2, claim as stated, refuted at size 15: the top crosshair segment the
script draws ends at y = center - ball_radius - padding = 2, not at the
ball edge y = center - ball_radius = 7/2. -/
theorem C2_cex : coreSegments (iconData 15) ≠ claimC2Segs 15 := by
  rw [coreSegments_eq]
  intro h
  simp only [crosshair, claimC2Segs, center, padding, ball_radius,
    List.cons.injEq, Prod.mk.injEq] at h
  push_cast at h
  norm_num at h

/-- C2 (amended): for every positive edge length the four white crosshair
core segments stop one padding short of the ball on each side: top from
(center, padding) to (center, center - ball_radius - padding), bottom from
(center, center + ball_radius + padding) to (center, size - padding), and
symmetrically left and right along y = center. -/
theorem C2_crosshair (s : ℤ) (_hs : 0 < s) :
    coreSegments (iconData s) =
      [ ((center s, padding s), (center s, center s - ball_radius s - padding s)),
        ((center s, center s + ball_radius s + padding s), (center s, (s : ℚ) - padding s)),
        ((padding s, center s), (center s - ball_radius s - padding s, center s)),
        ((center s + ball_radius s + padding s, center s), ((s : ℚ) - padding s, center s)) ] := by
  rw [coreSegments_eq]
  rfl

theorem C2_crosshair_w :
    (0 : ℤ) < 72 ∧
      coreSegments (iconData 72) =
        [ ((center 72, padding 72), (center 72, center 72 - ball_radius 72 - padding 72)),
          ((center 72, center 72 + ball_radius 72 + padding 72), (center 72, (72 : ℚ) - padding 72)),
          ((padding 72, center 72), (center 72 - ball_radius 72 - padding 72, center 72)),
          ((center 72 + ball_radius 72 + padding 72, center 72), ((72 : ℚ) - padding 72, center 72)) ] :=
  ⟨by decide, C2_crosshair 72 (by decide)⟩

/-- C3: for every positive edge length, every call of draw_glowing_line
issues exactly three translucent-white glow strokes of widths
line_width + 6, line_width + 4, line_width + 2 in that order, followed by
one solid white core stroke of width line_width = max(2, size // 30); in
particular at size 512 the core width is 17. -/
theorem C3_glow :
    (∀ s : ℤ, 0 < s → ∀ a b : ℚ × ℚ,
        draw_glowing_line s a b =
          [DrawOp.line a.1 a.2 b.1 b.2 glow_color (line_width s + 6),
           DrawOp.line a.1 a.2 b.1 b.2 glow_color (line_width s + 4),
           DrawOp.line a.1 a.2 b.1 b.2 glow_color (line_width s + 2),
           DrawOp.line a.1 a.2 b.1 b.2 white (line_width s)] ∧
        line_width s = max 2 (pyFloorDiv s 30)) ∧
    line_width 512 = 17 := by
  refine ⟨fun s _hs a b => ⟨?_, rfl⟩, by decide⟩
  rw [draw_glowing_line, show List.range 3 = [0, 1, 2] from rfl]
  norm_num

theorem C3_glow_w :
    (0 : ℤ) < 512 ∧
      (draw_glowing_line 512 (0, 0) (1, 1) =
          [DrawOp.line 0 0 1 1 glow_color (line_width 512 + 6),
           DrawOp.line 0 0 1 1 glow_color (line_width 512 + 4),
           DrawOp.line 0 0 1 1 glow_color (line_width 512 + 2),
           DrawOp.line 0 0 1 1 white (line_width 512)] ∧
        line_width 512 = max 2 (pyFloorDiv 512 30)) :=
  ⟨by decide, C3_glow.1 512 (by decide) (0, 0) (1, 1)⟩

/-- C4: for every positive edge length the script draws exactly eight
pattern arcs, one per starting angle 0, 45, ..., 315, each spanning 30
degrees, with radius 0.8 x ball_radius, stroke width max(1, size // 50),
and a center whose x and y offsets from the canvas center both equal
0.8 x ball_radius x 0.3 x (angle mod 90) / 90, so the center depends only
on angle mod 90. -/
theorem C4_arcs (s : ℤ) (_hs : 0 < s) :
    (arcOps s).length = 8 ∧
    arcOps s = arcAngles.map (fun a : ℤ =>
        DrawOp.arc
          (center s + (8 / 10) * ball_radius s * (3 / 10) * ((a % 90 : ℤ) : ℚ) / 90
            - (8 / 10) * ball_radius s)
          (center s + (8 / 10) * ball_radius s * (3 / 10) * ((a % 90 : ℤ) : ℚ) / 90
            - (8 / 10) * ball_radius s)
          (center s + (8 / 10) * ball_radius s * (3 / 10) * ((a % 90 : ℤ) : ℚ) / 90
            + (8 / 10) * ball_radius s)
          (center s + (8 / 10) * ball_radius s * (3 / 10) * ((a % 90 : ℤ) : ℚ) / 90
            + (8 / 10) * ball_radius s)
          a (a + 30) lightGray (max 1 (pyFloorDiv s 50))) ∧
    arcAngles = [0, 45, 90, 135, 180, 225, 270, 315] ∧
    (∀ a₁ ∈ arcAngles, ∀ a₂ ∈ arcAngles, a₁ % 90 = a₂ % 90 → arcX s a₁ = arcX s a₂) := by
  refine ⟨rfl, ?_, rfl, ?_⟩
  · rw [arcOps]
    apply List.map_congr_left
    intro a _
    rw [arcOp, arcX, pattern_radius]
    congr 1 <;> ring
  · intro a₁ _ a₂ _ h
    rw [arcX, arcX, h]

theorem C4_arcs_w :
    (0 : ℤ) < 72 ∧
      ((arcOps 72).length = 8 ∧
        arcOps 72 = arcAngles.map (fun a : ℤ =>
            DrawOp.arc
              (center 72 + (8 / 10) * ball_radius 72 * (3 / 10) * ((a % 90 : ℤ) : ℚ) / 90
                - (8 / 10) * ball_radius 72)
              (center 72 + (8 / 10) * ball_radius 72 * (3 / 10) * ((a % 90 : ℤ) : ℚ) / 90
                - (8 / 10) * ball_radius 72)
              (center 72 + (8 / 10) * ball_radius 72 * (3 / 10) * ((a % 90 : ℤ) : ℚ) / 90
                + (8 / 10) * ball_radius 72)
              (center 72 + (8 / 10) * ball_radius 72 * (3 / 10) * ((a % 90 : ℤ) : ℚ) / 90
                + (8 / 10) * ball_radius 72)
              a (a + 30) lightGray (max 1 (pyFloorDiv 72 50))) ∧
        arcAngles = [0, 45, 90, 135, 180, 225, 270, 315] ∧
        (∀ a₁ ∈ arcAngles, ∀ a₂ ∈ arcAngles, a₁ % 90 = a₂ % 90 → arcX 72 a₁ = arcX 72 a₂)) :=
  ⟨by decide, C4_arcs 72 (by decide)⟩

/-- C5: for every positive edge length the drop shadow is drawn on an
auxiliary canvas of the same size-by-size dimensions as a filled circle of
radius ball_radius whose center is offset by +2 in both axes, filled black
at alpha 50, gaussian-blurred with radius size // 30, and composited onto
the main canvas with the auxiliary canvas itself as the blend mask,
immediately before the solid white ball is drawn on top of it. -/
theorem C5_shadow (s : ℤ) (_hs : 0 < s) :
    (∃ pre post,
        (iconData s).steps =
          pre ++ RenderStep.pasteMasked s s [shadowOp s] (pyFloorDiv s 30)
            :: RenderStep.draw (ballOp s) :: post) ∧
    shadowOp s =
      DrawOp.ellipse (center s - ball_radius s + 2) (center s - ball_radius s + 2)
        (center s + ball_radius s + 2) (center s + ball_radius s + 2) (0, 0, 0, 50) ∧
    ((center s - ball_radius s + 2) + (center s + ball_radius s + 2)) / 2 = center s + 2 ∧
    ((center s + ball_radius s + 2) - (center s - ball_radius s + 2)) / 2 = ball_radius s ∧
    ballOp s =
      DrawOp.ellipse (center s - ball_radius s) (center s - ball_radius s)
        (center s + ball_radius s) (center s + ball_radius s) white := by
  refine ⟨⟨(gradOps s).map RenderStep.draw,
      (arcOps s).map RenderStep.draw ++ (lineOps s).map RenderStep.draw, ?_⟩,
    rfl, by ring, by ring, rfl⟩
  simp [iconData, blurRadius]

theorem C5_shadow_w :
    (0 : ℤ) < 72 ∧
      ((∃ pre post,
          (iconData 72).steps =
            pre ++ RenderStep.pasteMasked 72 72 [shadowOp 72] (pyFloorDiv 72 30)
              :: RenderStep.draw (ballOp 72) :: post) ∧
        shadowOp 72 =
          DrawOp.ellipse (center 72 - ball_radius 72 + 2) (center 72 - ball_radius 72 + 2)
            (center 72 + ball_radius 72 + 2) (center 72 + ball_radius 72 + 2) (0, 0, 0, 50) ∧
        ((center 72 - ball_radius 72 + 2) + (center 72 + ball_radius 72 + 2)) / 2 = center 72 + 2 ∧
        ((center 72 + ball_radius 72 + 2) - (center 72 - ball_radius 72 + 2)) / 2 = ball_radius 72 ∧
        ballOp 72 =
          DrawOp.ellipse (center 72 - ball_radius 72) (center 72 - ball_radius 72)
            (center 72 + ball_radius 72) (center 72 + ball_radius 72) white) :=
  ⟨by decide, C5_shadow 72 (by decide)⟩

/-- C6: the driving loop produces exactly one output file per size of the
fixed list, named icons/icon-{size}x{size}.png, and exactly one console
line Generated icon-{size}x{size}.png per file, in order; the eight file
names are pairwise distinct. -/
theorem C6_outputs :
    generate_all = Except.ok expectedOutputs ∧ (expectedOutputs.map Prod.fst).Nodup := by
  have h : ∀ s : ℤ, s ≠ 0 →
      (create_icon s).map (fun ic => (ic.filename, ic.printed)) =
        Except.ok (fileName s, message s) := by
    intro s hs
    rw [create_icon_ok hs]
    rfl
  constructor
  · rw [generate_all, SIZES]
    rw [List.mapM_cons, List.mapM_cons, List.mapM_cons, List.mapM_cons,
      List.mapM_cons, List.mapM_cons, List.mapM_cons, List.mapM_cons, List.mapM_nil]
    rw [h 72 (by decide), h 96 (by decide), h 128 (by decide), h 144 (by decide),
      h 152 (by decide), h 192 (by decide), h 384 (by decide), h 512 (by decide)]
    rfl
  · decide

/-- C8: the generator is deterministic: two runs over the same size list,
in arbitrary ambient environments (clock, random seed), produce identical
per-file rendered contents.  The script reads no clock and no randomness,
so the run result is a pure function of the size list; with the library's
deterministic PNG encoder this makes the written files byte-identical
between runs. -/
theorem C8_deterministic (sizes : List ℤ) (e₁ e₂ : Environment) :
    run_with e₁ sizes = run_with e₂ sizes := rfl

/-- C9: create_icon performs no validation of its size argument: for every
integer size other than 0 it runs to completion (negative sizes included),
and the only error it can ever raise itself is the arithmetic
ZeroDivisionError of the first gradient iteration at size 0 -- never an
input-rejection error. -/
theorem C9_no_validation (z : ℤ) :
    ((∃ ic, create_icon z = Except.ok ic) ↔ z ≠ 0) ∧
    ∀ e, create_icon z = Except.error e → e = zeroDivisionError := by
  have hzero : gradIndices 0 ≠ [] := by
    rw [gradIndices]
    rw [show pyInt (((0 : ℤ) : ℚ) * (6 / 5)) = 0 by
      rw [pyInt, if_pos (by norm_num)]
      norm_num]
    rw [pyRangeDown, if_neg (by norm_num)]
    simp
  constructor
  · constructor
    · rintro ⟨ic, hic⟩ rfl
      rw [create_icon, if_pos ⟨by norm_num, hzero⟩] at hic
      exact Except.noConfusion hic
    · intro hz
      exact ⟨iconData z, create_icon_ok hz⟩
  · intro e he
    rw [create_icon] at he
    split at he
    · injection he with h
      exact h.symm
    · exact Except.noConfusion he

theorem C9_no_validation_w :
    ((∃ ic, create_icon (-5) = Except.ok ic) ↔ (-5 : ℤ) ≠ 0) ∧
      ∀ e, create_icon (-5) = Except.error e → e = zeroDivisionError :=
  C9_no_validation (-5)

/-- C10: for every positive edge length every crosshair segment has
strictly positive length: the free run on each side,
center - ball_radius - padding, equals (2/15) x size, which is strictly
greater than padding = 0.1 x size, and along its axis each segment starts
strictly below its end. -/
theorem C10_segments (s : ℤ) (hs : 0 < s) :
    center s - ball_radius s - padding s = (2 / 15) * (s : ℚ) ∧
    padding s < (2 / 15) * (s : ℚ) ∧
    ∀ ab ∈ crosshair s,
      (ab.1.1 = ab.2.1 ∧ ab.1.2 < ab.2.2) ∨ (ab.1.2 = ab.2.2 ∧ ab.1.1 < ab.2.1) := by
  have hq : (0 : ℚ) < (s : ℚ) := by exact_mod_cast hs
  refine ⟨by rw [center, ball_radius, padding]; ring, by rw [padding]; linarith, ?_⟩
  intro ab hab
  simp only [crosshair, List.mem_cons, List.not_mem_nil, or_false] at hab
  rcases hab with rfl | rfl | rfl | rfl
  · exact Or.inl ⟨rfl, by simp only [center, ball_radius, padding]; linarith⟩
  · exact Or.inl ⟨rfl, by simp only [center, ball_radius, padding]; linarith⟩
  · exact Or.inr ⟨rfl, by simp only [center, ball_radius, padding]; linarith⟩
  · exact Or.inr ⟨rfl, by simp only [center, ball_radius, padding]; linarith⟩

theorem C10_segments_w :
    (0 : ℤ) < 72 ∧
      (center 72 - ball_radius 72 - padding 72 = (2 / 15) * (72 : ℚ) ∧
        padding 72 < (2 / 15) * (72 : ℚ) ∧
        ∀ ab ∈ crosshair 72,
          (ab.1.1 = ab.2.1 ∧ ab.1.2 < ab.2.2) ∨ (ab.1.2 = ab.2.2 ∧ ab.1.1 < ab.2.1)) :=
  ⟨by decide, C10_segments 72 (by decide)⟩

/-! Corner-transparency infrastructure: every drawing call of the icon
keeps a safe distance from all four canvas corners. -/

theorem corner_cases {s : ℤ} {p : ℚ × ℚ} (hp : p ∈ corners s) :
    (p.1 = 0 ∨ p.1 = (s : ℚ) - 1) ∧ (p.2 = 0 ∨ p.2 = (s : ℚ) - 1) := by
  simp only [corners, List.mem_cons, List.not_mem_nil, or_false] at hp
  rcases hp with rfl | rfl | rfl | rfl <;> simp

theorem central_safe {s cx cy R px py : ℚ} (hs : 72 ≤ s)
    (hcx1 : s / 2 ≤ cx) (hcx2 : cx ≤ s / 2 + s / 25)
    (hcy1 : s / 2 ≤ cy) (hcy2 : cy ≤ s / 2 + s / 25)
    (hR0 : 0 ≤ R) (hR : R ≤ 3 * s / 5 + 2)
    (hpx : px = 0 ∨ px = s - 1) (hpy : py = 0 ∨ py = s - 1) :
    ¬ ((px - cx) ^ 2 + (py - cy) ^ 2 ≤ R ^ 2) := by
  intro h
  have hs0 : (0 : ℚ) ≤ s := by linarith
  have hss : 0 ≤ s * (s - 72) := mul_nonneg hs0 (by linarith)
  have hR2 : R * R ≤ (3 * s / 5 + 2) * (3 * s / 5 + 2) :=
    mul_le_mul hR hR hR0 (by linarith)
  have hcxm : s / 2 * (s / 2) ≤ cx * cx := mul_le_mul hcx1 hcx1 (by linarith) (by linarith)
  have hcym : s / 2 * (s / 2) ≤ cy * cy := mul_le_mul hcy1 hcy1 (by linarith) (by linarith)
  have hdx : 23 * s / 50 - 1 ≤ s - 1 - cx := by linarith
  have hdy : 23 * s / 50 - 1 ≤ s - 1 - cy := by linarith
  have hd0 : (0 : ℚ) ≤ 23 * s / 50 - 1 := by linarith
  have hdxm : (23 * s / 50 - 1) * (23 * s / 50 - 1) ≤ (s - 1 - cx) * (s - 1 - cx) :=
    mul_le_mul hdx hdx hd0 (by linarith)
  have hdym : (23 * s / 50 - 1) * (23 * s / 50 - 1) ≤ (s - 1 - cy) * (s - 1 - cy) :=
    mul_le_mul hdy hdy hd0 (by linarith)
  rcases hpx with rfl | rfl <;> rcases hpy with rfl | rfl
  · nlinarith [h, hR2, hcxm, hcym, hss]
  · nlinarith [h, hR2, hcxm, hdym, hss]
  · nlinarith [h, hR2, hdxm, hcym, hss]
  · nlinarith [h, hR2, hdxm, hdym, hss]

theorem axis_safe {s cx cy R px py : ℚ} (hs : 72 ≤ s)
    (hR0 : 0 ≤ R) (hR : R ≤ s / 20 + 8)
    (haxis : cx = s / 2 ∨ cy = s / 2)
    (hpx : px = 0 ∨ px = s - 1) (hpy : py = 0 ∨ py = s - 1) :
    ¬ ((px - cx) ^ 2 + (py - cy) ^ 2 ≤ R ^ 2) := by
  intro h
  have hs0 : (0 : ℚ) ≤ s := by linarith
  have hss : 0 ≤ s * (s - 72) := mul_nonneg hs0 (by linarith)
  have hR2 : R * R ≤ (s / 20 + 8) * (s / 20 + 8) :=
    mul_le_mul hR hR hR0 (by linarith)
  rcases haxis with rfl | rfl
  · have h1 : (s / 2 - 1) ^ 2 ≤ (px - s / 2) ^ 2 := by
      rcases hpx with rfl | rfl <;> nlinarith [hss]
    nlinarith [sq_nonneg (py - cy), h, h1, hR2, hss]
  · have h1 : (s / 2 - 1) ^ 2 ≤ (py - s / 2) ^ 2 := by
      rcases hpy with rfl | rfl <;> nlinarith [hss]
    nlinarith [sq_nonneg (px - cx), h, h1, hR2, hss]

theorem line_disc_safe {s x0 y0 x1 y1 : ℚ} {f : Color} {w : ℤ} {p : ℚ × ℚ}
    (hq : 72 ≤ s) (hw0 : (0 : ℚ) ≤ (w : ℚ)) (hwle : (w : ℚ) ≤ s / 30 + 6)
    (hlen : |x1 - x0| + |y1 - y0| ≤ s / 30)
    (haxis : (x0 + x1) / 2 = s / 2 ∨ (y0 + y1) / 2 = s / 2)
    (hpx : p.1 = 0 ∨ p.1 = s - 1) (hpy : p.2 = 0 ∨ p.2 = s - 1) :
    ¬ inDisc (discOfOp 0 (DrawOp.line x0 y0 x1 y1 f w)) p := by
  have e : discOfOp 0 (DrawOp.line x0 y0 x1 y1 f w) =
      ⟨(x0 + x1) / 2, (y0 + y1) / 2, (|x1 - x0| + |y1 - y0|) / 2 + (w : ℚ) + 2⟩ := by
    show Disc.mk _ _ _ = _
    congr 1
    ring
  have ha0 : (0 : ℚ) ≤ |x1 - x0| := abs_nonneg _
  have ha1 : (0 : ℚ) ≤ |y1 - y0| := abs_nonneg _
  rw [inDisc, e]
  exact axis_safe hq (by linarith) (by linarith) haxis hpx hpy

theorem line_width_bounds {s : ℤ} (h72 : (72 : ℤ) ≤ s) :
    ((line_width s : ℤ) : ℚ) ≤ (s : ℚ) / 30 ∧ (2 : ℤ) ≤ line_width s := by
  have hq : (72 : ℚ) ≤ (s : ℚ) := by exact_mod_cast h72
  have hge : (2 : ℤ) ≤ pyFloorDiv s 30 :=
    le_pyFloorDiv 2 s 30 (by decide) (by push_cast; linarith)
  exact ⟨by rw [line_width, max_eq_right hge]; exact_mod_cast pyFloorDiv_le s 30 (by decide),
    le_max_left _ _⟩

theorem blur_bounds {s : ℤ} (h72 : (72 : ℤ) ≤ s) :
    (0 : ℤ) ≤ blurRadius s ∧ ((blurRadius s : ℤ) : ℚ) ≤ (s : ℚ) / 30 := by
  have hq : (72 : ℚ) ≤ (s : ℚ) := by exact_mod_cast h72
  exact ⟨le_pyFloorDiv 0 s 30 (by decide) (by push_cast; linarith),
    by rw [blurRadius]; exact_mod_cast pyFloorDiv_le s 30 (by decide)⟩

theorem arc_width_bounds {s : ℤ} (h72 : (72 : ℤ) ≤ s) :
    ((max 1 (pyFloorDiv s 50) : ℤ) : ℚ) ≤ (s : ℚ) / 50 ∧
      (0 : ℤ) ≤ max 1 (pyFloorDiv s 50) := by
  have hq : (72 : ℚ) ≤ (s : ℚ) := by exact_mod_cast h72
  have hge : (1 : ℤ) ≤ pyFloorDiv s 50 :=
    le_pyFloorDiv 1 s 50 (by decide) (by push_cast; linarith)
  exact ⟨by rw [max_eq_right hge]; exact_mod_cast pyFloorDiv_le s 50 (by decide),
    le_trans (by decide) (le_max_left _ _)⟩

theorem glow_line_shape {s : ℤ} {a b : ℚ × ℚ} {op : DrawOp}
    (hop : op ∈ draw_glowing_line s a b) :
    ∃ f w, op = DrawOp.line a.1 a.2 b.1 b.2 f w ∧
      line_width s ≤ w ∧ w ≤ line_width s + 6 := by
  rw [draw_glowing_line] at hop
  rcases List.mem_append.mp hop with hg | hc
  · obtain ⟨i, hi, rfl⟩ := List.mem_map.mp hg
    have hi3 : i < 3 := List.mem_range.mp hi
    have hic : (i : ℤ) ≤ 2 := by exact_mod_cast Nat.lt_succ_iff.mp hi3
    have hic0 : (0 : ℤ) ≤ (i : ℤ) := Int.natCast_nonneg i
    exact ⟨glow_color, _, rfl, by omega, by omega⟩
  · rw [List.mem_singleton.mp hc]
    exact ⟨white, line_width s, rfl, le_rfl, by omega⟩

/-- For every size of at least 72, no render step of the icon reaches any
of the four corner pixels. -/
theorem steps_safe (s : ℤ) (h72 : (72 : ℤ) ≤ s) :
    ∀ st ∈ (iconData s).steps, ∀ p ∈ corners s, ¬ stepCovers st p := by
  have hq : (72 : ℚ) ≤ (s : ℚ) := by exact_mod_cast h72
  have hq0 : (0 : ℚ) ≤ (s : ℚ) := by linarith
  have hbr : ball_radius s = 4 * (s : ℚ) / 15 := by rw [ball_radius, padding]; ring
  intro st hst p hp
  obtain ⟨hpx, hpy⟩ := corner_cases hp
  rw [iconData] at hst
  rcases List.mem_append.mp hst with h1 | hD
  rotate_left
  · -- crosshair line strokes
    obtain ⟨op, hop, rfl⟩ := List.mem_map.mp hD
    rw [lineOps] at hop
    obtain ⟨l, hl, hopl⟩ := List.mem_flatten.mp hop
    obtain ⟨ab, hab, rfl⟩ := List.mem_map.mp hl
    obtain ⟨f, w, rfl, hw1, hw2⟩ := glow_line_shape hopl
    obtain ⟨hlwle, hlw2⟩ := line_width_bounds h72
    have hw0 : (0 : ℚ) ≤ (w : ℚ) := by exact_mod_cast (by omega : (0 : ℤ) ≤ w)
    have hwle : (w : ℚ) ≤ (s : ℚ) / 30 + 6 := by
      have hcast : ((w : ℤ) : ℚ) ≤ ((line_width s : ℤ) : ℚ) + 6 := by exact_mod_cast hw2
      linarith
    show ¬ inDisc (discOfOp 0 (DrawOp.line ab.1.1 ab.1.2 ab.2.1 ab.2.2 f w)) p
    have hgap : (center s - ball_radius s - padding s) - padding s = (s : ℚ) / 30 := by
      rw [center, ball_radius, padding]; ring
    have hgap' : ((s : ℚ) - padding s) - (center s + ball_radius s + padding s) =
        (s : ℚ) / 30 := by
      rw [center, ball_radius, padding]; ring
    simp only [crosshair, List.mem_cons, List.not_mem_nil, or_false] at hab
    rcases hab with rfl | rfl | rfl | rfl
    · refine line_disc_safe hq hw0 hwle ?_ (Or.inl ?_) hpx hpy
      · show |center s - center s| + |(center s - ball_radius s - padding s) - padding s| ≤
          (s : ℚ) / 30
        rw [sub_self, abs_zero, hgap, abs_of_nonneg (by linarith : (0 : ℚ) ≤ (s : ℚ) / 30)]
        linarith
      · show (center s + center s) / 2 = (s : ℚ) / 2
        rw [center]; ring
    · refine line_disc_safe hq hw0 hwle ?_ (Or.inl ?_) hpx hpy
      · show |center s - center s| + |((s : ℚ) - padding s) -
          (center s + ball_radius s + padding s)| ≤ (s : ℚ) / 30
        rw [sub_self, abs_zero, hgap', abs_of_nonneg (by linarith : (0 : ℚ) ≤ (s : ℚ) / 30)]
        linarith
      · show (center s + center s) / 2 = (s : ℚ) / 2
        rw [center]; ring
    · refine line_disc_safe hq hw0 hwle ?_ (Or.inr ?_) hpx hpy
      · show |(center s - ball_radius s - padding s) - padding s| + |center s - center s| ≤
          (s : ℚ) / 30
        rw [sub_self, abs_zero, hgap, abs_of_nonneg (by linarith : (0 : ℚ) ≤ (s : ℚ) / 30)]
        linarith
      · show (center s + center s) / 2 = (s : ℚ) / 2
        rw [center]; ring
    · refine line_disc_safe hq hw0 hwle ?_ (Or.inr ?_) hpx hpy
      · show |((s : ℚ) - padding s) - (center s + ball_radius s + padding s)| +
          |center s - center s| ≤ (s : ℚ) / 30
        rw [sub_self, abs_zero, hgap', abs_of_nonneg (by linarith : (0 : ℚ) ≤ (s : ℚ) / 30)]
        linarith
      · show (center s + center s) / 2 = (s : ℚ) / 2
        rw [center]; ring
  rcases List.mem_append.mp h1 with h2 | hC
  rotate_left
  · -- pattern arcs
    obtain ⟨op, hop, rfl⟩ := List.mem_map.mp hC
    rw [arcOps] at hop
    obtain ⟨a, ha, rfl⟩ := List.mem_map.mp hop
    have hm : (0 : ℚ) ≤ ((a % 90 : ℤ) : ℚ) ∧ ((a % 90 : ℤ) : ℚ) ≤ 45 := by
      have hz : (0 : ℤ) ≤ a % 90 ∧ a % 90 ≤ 45 := by fin_cases ha <;> decide
      exact ⟨by exact_mod_cast hz.1, by exact_mod_cast hz.2⟩
    have hpr : pattern_radius s = 16 * (s : ℚ) / 75 := by
      rw [pattern_radius, ball_radius, padding]; ring
    have hoff0 : 0 ≤ pattern_radius s * (3 / 10) * ((a % 90 : ℤ) : ℚ) / 90 := by
      apply div_nonneg _ (by norm_num)
      apply mul_nonneg _ hm.1
      rw [hpr]
      positivity
    have hsm : (s : ℚ) * ((a % 90 : ℤ) : ℚ) ≤ (s : ℚ) * 45 :=
      mul_le_mul_of_nonneg_left hm.2 (by linarith)
    have hoff45 : pattern_radius s * (3 / 10) * ((a % 90 : ℤ) : ℚ) / 90 ≤ (s : ℚ) / 25 := by
      rw [hpr]
      nlinarith
    obtain ⟨hwle, hw0⟩ := arc_width_bounds h72
    have hw0q : (0 : ℚ) ≤ ((max 1 (pyFloorDiv s 50) : ℤ) : ℚ) := by exact_mod_cast hw0
    have e : discOfOp 0 (arcOp s a) =
        ⟨arcX s a, arcX s a,
          pattern_radius s + ((max 1 (pyFloorDiv s 50) : ℤ) : ℚ) + 2⟩ := by
      rw [arcOp]
      show Disc.mk _ _ _ = _
      congr 1 <;> ring
    show ¬ inDisc (discOfOp 0 (arcOp s a)) p
    rw [inDisc, e]
    have hax1 : (s : ℚ) / 2 ≤ arcX s a := by
      rw [arcX, center]; linarith
    have hax2 : arcX s a ≤ (s : ℚ) / 2 + (s : ℚ) / 25 := by
      rw [arcX, center]; linarith
    refine central_safe hq hax1 hax2 hax1 hax2 ?_ ?_ hpx hpy
    · rw [hpr]; linarith
    · rw [hpr]; linarith
  rcases List.mem_append.mp h2 with h3 | hball
  rotate_left
  · -- the white ball
    rw [List.mem_singleton.mp hball]
    show ¬ inDisc (discOfOp 0 (ballOp s)) p
    have e : discOfOp 0 (ballOp s) = ⟨(s : ℚ) / 2, (s : ℚ) / 2, ball_radius s + 2⟩ := by
      rw [ballOp]
      show Disc.mk _ _ _ = _
      congr 1 <;> (rw [center]) <;> ring
    rw [inDisc, e]
    exact central_safe hq le_rfl (by linarith) le_rfl (by linarith)
      (by rw [hbr]; linarith) (by rw [hbr]; linarith) hpx hpy
  rcases List.mem_append.mp h3 with hgrad | hpaste
  · -- gradient circles
    obtain ⟨op, hop, rfl⟩ := List.mem_map.mp hgrad
    rw [gradOps] at hop
    obtain ⟨i, hi, rfl⟩ := List.mem_map.mp hop
    obtain ⟨hi0, hile⟩ := mem_gradIndices (by omega) hi
    have hi0q : (0 : ℚ) ≤ (i : ℚ) := by exact_mod_cast hi0
    show ¬ inDisc (discOfOp 0 (gradOp s i)) p
    have e : discOfOp 0 (gradOp s i) =
        ⟨(s : ℚ) / 2, (s : ℚ) / 2, (i : ℚ) / 2 + 2⟩ := by
      rw [gradOp]
      show Disc.mk _ _ _ = _
      congr 1 <;> (rw [center]) <;> ring
    rw [inDisc, e]
    exact central_safe hq le_rfl (by linarith) le_rfl (by linarith)
      (by linarith) (by linarith) hpx hpy
  · -- the blurred shadow paste
    rw [List.mem_singleton.mp hpaste]
    show ¬ ∃ op ∈ [shadowOp s], inDisc (discOfOp (3 * ((blurRadius s : ℤ) : ℚ)) op) p
    rintro ⟨op, hop, hd⟩
    rw [List.mem_singleton.mp hop] at hd
    obtain ⟨hbl0, hble⟩ := blur_bounds h72
    have hbl0q : (0 : ℚ) ≤ ((blurRadius s : ℤ) : ℚ) := by exact_mod_cast hbl0
    have e : discOfOp (3 * ((blurRadius s : ℤ) : ℚ)) (shadowOp s) =
        ⟨(s : ℚ) / 2 + 2, (s : ℚ) / 2 + 2,
          ball_radius s + 3 * ((blurRadius s : ℤ) : ℚ) + 2⟩ := by
      rw [shadowOp]
      show Disc.mk _ _ _ = _
      congr 1 <;> (rw [center]) <;> ring
    rw [inDisc, e] at hd
    exact central_safe hq (by linarith) (by linarith) (by linarith) (by linarith)
      (by rw [hbr]; linarith) (by rw [hbr]; linarith) hpx hpy hd

/-- C7: for every size in the fixed list, no drawing operation of the icon
(gradient circle, blurred shadow, ball, pattern arc or crosshair stroke)
reaches any of the four corner pixels of the canvas, so the corners keep
the alpha = 0 of the freshly allocated transparent canvas. -/
theorem C7_corners (s : ℤ) (hs : s ∈ SIZES) :
    ∀ p ∈ corners s, ∀ st ∈ (iconData s).steps, ¬ stepCovers st p := by
  have h72 : (72 : ℤ) ≤ s := by fin_cases hs <;> decide
  intro p hp st hst
  exact steps_safe s h72 st hst p hp

theorem C7_corners_w :
    (72 : ℤ) ∈ SIZES ∧
      ∀ p ∈ corners 72, ∀ st ∈ (iconData 72).steps, ¬ stepCovers st p :=
  ⟨by decide, C7_corners 72 (by decide)⟩

end GenIcons
